import Mathlib

/-!
Shallow embedding of the koit embedded database (src/lib.rs, src/backend.rs,
src/error.rs, src/format.rs) and proofs of its specification claims.

Bytes (`Vec<u8>`) are modelled as `List Nat`.  The `Format` trait becomes a
record of an encoding and a decoding function; the `Backend` trait becomes a
record of `read` and `write` state transformers.  The async locking around the
data and the backend serializes every operation, so each engine operation is
modelled as a pure function from the engine state (value plus backend state)
to a result paired with the next state.
-/

namespace Koit

/-- Error variants of `KoitError` (src/error.rs).  The source wraps the causing
error in a `Box<dyn Error>`; the payload is erased here, keeping the variant. -/
inductive KoitError where
  | ToFormat
  | FromFormat
  | BackendRead
  | BackendWrite
  | BackendCreation
deriving DecidableEq, Repr

/-- The `Format` trait (src/format.rs): conversion between data `D` and bytes,
with distinct serialization and deserialization error types. -/
structure Format (D ES ED : Type) where
  to_bytes : D → Except ES (List Nat)
  from_bytes : List Nat → Except ED D

/-- The `Backend` trait (src/backend.rs): byte storage with fallible whole-content
read and write.  Both take `&mut self`, so both return the next backend state. -/
structure Backend (B E : Type) where
  read : B → Except E (List Nat) × B
  write : B → List Nat → Except E Unit × B

/-- `Database<D, B, F>` (src/lib.rs): the data value and the backend state.
The `RwLock`/`Mutex` wrappers serialize access and are elided. -/
structure Database (D B : Type) where
  data : D
  backend : B
deriving DecidableEq, Repr

/-- `Database::replace` (src/lib.rs lines 134-138): swap in the given data,
returning the old data. -/
def Database.replace {D B : Type} (db : Database D B) (data : D) :
    D × Database D B :=
  (db.data, { db with data := data })

/-- `Database::save` (src/lib.rs lines 199-207): encode the current data; on
encode failure return `ToFormat` without touching the backend; otherwise write
the bytes to the backend, mapping a write failure to `BackendWrite`. -/
def Database.save {D B ES ED E : Type} (F : Format D ES ED) (ops : Backend B E)
    (db : Database D B) : Except KoitError Unit × Database D B :=
  match F.to_bytes db.data with
  | Except.error _ => (Except.error KoitError.ToFormat, db)
  | Except.ok bytes =>
    match ops.write db.backend bytes with
    | (Except.error _, b) => (Except.error KoitError.BackendWrite, { db with backend := b })
    | (Except.ok _, b) => (Except.ok (), { db with backend := b })

/-- `Database::load_from_backend` (src/lib.rs lines 210-217): read bytes from
the backend (`BackendRead` on failure), then decode them (`FromFormat` on
failure). -/
def Database.load_from_backend {D B ES ED E : Type} (F : Format D ES ED)
    (ops : Backend B E) (db : Database D B) : Except KoitError D × Database D B :=
  match ops.read db.backend with
  | (Except.error _, b) => (Except.error KoitError.BackendRead, { db with backend := b })
  | (Except.ok bytes, b) =>
    match F.from_bytes bytes with
    | Except.error _ => (Except.error KoitError.FromFormat, { db with backend := b })
    | Except.ok d => (Except.ok d, { db with backend := b })

/-- `Database::reload` (src/lib.rs lines 231-234): load new data from the
backend, propagating its error; on success replace the current data with it,
returning the old data. -/
def Database.reload {D B ES ED E : Type} (F : Format D ES ED) (ops : Backend B E)
    (db : Database D B) : Except KoitError D × Database D B :=
  match Database.load_from_backend F ops db with
  | (Except.error e, db1) => (Except.error e, db1)
  | (Except.ok new_data, db1) =>
    let r := db1.replace new_data
    (Except.ok r.1, r.2)

/-- `Memory` (src/backend.rs line 69): an in-memory backend wrapping a byte
buffer. -/
structure Memory where
  buf : List Nat
deriving DecidableEq, Repr

/-- `Memory::Error = std::convert::Infallible`: the uninhabited error type of
the in-memory backend. -/
def Memory.Error : Type := Empty

/-- `Memory::new` (src/backend.rs lines 72-74). -/
def Memory.new : Memory := ⟨[]⟩

/-- `Memory::take` (src/backend.rs lines 77-79): take the buffer out, leaving
an empty buffer. -/
def Memory.take (m : Memory) : List Nat × Memory :=
  (m.buf, ⟨[]⟩)

/-- `<Memory as Backend>::read` (src/backend.rs lines 92-94): clone the buffer. -/
def Memory.read (m : Memory) : Except Memory.Error (List Nat) × Memory :=
  (Except.ok m.buf, m)

/-- `<Memory as Backend>::write` (src/backend.rs lines 95-97): replace the
buffer outright. -/
def Memory.write (_m : Memory) (data : List Nat) : Except Memory.Error Unit × Memory :=
  (Except.ok (), ⟨data⟩)

/-- The `Backend` impl for `Memory` (src/backend.rs lines 88-98) as an
operations record. -/
def Memory.backend : Backend Memory Memory.Error :=
  { read := Memory.read, write := Memory.write }

/-- IO error kinds distinguished by the source (src/backend.rs lines 151-163):
`std::io::ErrorKind::NotFound` against any other kind. -/
inductive IoError where
  | notFound
  | other
deriving DecidableEq, Repr

/-- The file system, modelling the OS state the `File` backend runs against:
an association list from paths to file contents. -/
abbrev FS : Type := List (String × List Nat)

/-- Look up the content of the file at path `p`, if it exists. -/
def fsLookup (fs : FS) (p : String) : Option (List Nat) :=
  match fs with
  | [] => none
  | (q, c) :: rest => if q = p then some c else fsLookup rest p

/-- Set the content of the file at path `p`, creating it if absent. -/
def fsSet (fs : FS) (p : String) (c : List Nat) : FS :=
  match fs with
  | [] => [(p, c)]
  | (q, d) :: rest => if q = p then (q, c) :: rest else (q, d) :: fsSet rest p c

/-- `File::from_path` (src/backend.rs lines 124-135): open the file read/write
without creating it.  The handle is modelled by the path; opening a missing
file fails with `NotFound`. -/
def File.from_path (fs : FS) (p : String) : Except IoError String :=
  match fsLookup fs p with
  | some _ => Except.ok p
  | none => Except.error IoError.notFound

/-- `File::from_path_or_create` (src/backend.rs lines 144-166): try
`from_path`; on success report that the file pre-existed; on a `NotFound`
error create the (empty) file and report that it did not; propagate any other
error. -/
def File.from_path_or_create (fs : FS) (p : String) :
    Except IoError (String × Bool × FS) :=
  match File.from_path fs p with
  | Except.ok h => Except.ok (h, true, fs)
  | Except.error err =>
    match err with
    | IoError.notFound => Except.ok (p, false, fsSet fs p [])
    | IoError.other => Except.error err

/-- `<File as Backend>::read` (src/backend.rs lines 173-178) at the
file-system level: seek to the start and read the whole content. -/
def File.fsRead (fs : FS) (p : String) : List Nat :=
  (fsLookup fs p).getD []

/-- The `Backend` impl for `File` (src/backend.rs lines 169-187) at the
file-system level: the state is the file system paired with the handle's path;
read returns the whole content, write replaces it.  (The step-by-step failure
behaviour of the write path is modelled separately by `File.write`.) -/
def File.backend : Backend (FS × String) IoError :=
  { read := fun b => (Except.ok (File.fsRead b.1 b.2), b),
    write := fun b data => (Except.ok (), (fsSet b.1 b.2 data, b.2)) }

/-- `FileDatabase::load_from_path` (src/lib.rs lines 260-279): open the file
(`BackendCreation` on failure), read its bytes (`BackendRead` on failure),
decode them (`FromFormat` on failure), and build the database. -/
def load_from_path {D ES ED : Type} (F : Format D ES ED) (fs : FS) (p : String) :
    Except KoitError (Database D (FS × String)) :=
  match File.from_path fs p with
  | Except.error _ => Except.error KoitError.BackendCreation
  | Except.ok h =>
    match (File.backend.read (fs, h)).1 with
    | Except.error _ => Except.error KoitError.BackendRead
    | Except.ok bytes =>
      match F.from_bytes bytes with
      | Except.error _ => Except.error KoitError.FromFormat
      | Except.ok d => Except.ok ⟨d, (fs, h)⟩

/-- `FileDatabase::load_from_path_or_else` (src/lib.rs lines 284-311): open or
create the file; if it pre-existed read and decode its content, otherwise call
the factory; then save the database before returning it, propagating any save
error. -/
def load_from_path_or_else {D ES ED : Type} (F : Format D ES ED) (fs : FS)
    (p : String) (factory : Unit → D) :
    Except KoitError (Database D (FS × String)) :=
  match File.from_path_or_create fs p with
  | Except.error _ => Except.error KoitError.BackendCreation
  | Except.ok (h, pre, fs1) =>
    let dres : Except KoitError D :=
      if pre then
        match (File.backend.read (fs1, h)).1 with
        | Except.error _ => Except.error KoitError.BackendRead
        | Except.ok bytes =>
          match F.from_bytes bytes with
          | Except.error _ => Except.error KoitError.FromFormat
          | Except.ok d => Except.ok d
      else Except.ok (factory ())
    match dres with
    | Except.error e => Except.error e
    | Except.ok d =>
      match Database.save F File.backend ⟨d, (fs1, h)⟩ with
      | (Except.error e, _) => Except.error e
      | (Except.ok _, db) => Except.ok db

/-- `FileDatabase::load_from_path_or_default` (src/lib.rs lines 314-320):
`load_from_path_or_else` with the default value as factory. -/
def load_from_path_or_default {D ES ED : Type} (F : Format D ES ED) (fs : FS)
    (p : String) (dflt : D) : Except KoitError (Database D (FS × String)) :=
  load_from_path_or_else F fs p (fun _ => dflt)

/-- The primitive file-handle operations performed by
`<File as Backend>::write` (src/backend.rs lines 180-186). -/
inductive FileOp where
  | seekStart
  | setLenZero
  | writeAll (data : List Nat)
  | syncAll
deriving DecidableEq, Repr

/-- The state of an open file handle: the file's content and the cursor
position. -/
structure FileState where
  content : List Nat
  pos : Nat
deriving DecidableEq, Repr

/-- Effect of each primitive operation on the handle state: `seek(Start(0))`
resets the cursor, `set_len(0)` truncates the content, `write_all` writes the
bytes at the cursor, `sync_all` only forces durability. -/
def applyOp : FileOp → FileState → FileState
  | FileOp.seekStart, st => { st with pos := 0 }
  | FileOp.setLenZero, st => { st with content := [] }
  | FileOp.writeAll data, st =>
    { content := st.content.take st.pos ++ data, pos := st.pos + data.length }
  | FileOp.syncAll, st => st

/-- Apply a list of primitive operations in order. -/
def applyOps (ops : List FileOp) (st : FileState) : FileState :=
  ops.foldl (fun s o => applyOp o s) st

/-- Run primitive operations in order against a success oracle `ok` (step `i`
succeeds iff `ok i`).  A failing step performs no effect; the run stops at the
first failure (`?` propagation in the source) with no rollback.  Also returns
the list of attempted operations. -/
def runOps (ok : Nat → Bool) : Nat → List FileOp → FileState →
    Except IoError Unit × FileState × List FileOp
  | _, [], st => (Except.ok (), st, [])
  | i, op :: rest, st =>
    if ok i then
      let r := runOps ok (i + 1) rest (applyOp op st)
      (r.1, r.2.1, op :: r.2.2)
    else
      (Except.error IoError.other, st, [op])

/-- The operation sequence of `<File as Backend>::write` (src/backend.rs lines
181-184): seek to the start, truncate to zero length, write all bytes, sync. -/
def File.writeSteps (data : List Nat) : List FileOp :=
  [FileOp.seekStart, FileOp.setLenZero, FileOp.writeAll data, FileOp.syncAll]

/-- `<File as Backend>::write` (src/backend.rs lines 180-186) at the handle
level: run its four steps in order against the success oracle. -/
def File.write (ok : Nat → Bool) (st : FileState) (data : List Nat) :
    Except IoError Unit × FileState × List FileOp :=
  runOps ok 0 (File.writeSteps data) st

/-! ## Claims -/

/-- C3: for every `Memory` store state and byte sequence `b`, `write b`
succeeds and a subsequent `read` returns exactly `b`; and on a freshly
constructed `Memory` store, `read` returns the empty byte sequence. -/
theorem memory_write_read (m : Memory) (b : List Nat) :
    (m.write b).1 = Except.ok () ∧
    ((m.write b).2.read).1 = Except.ok b ∧
    (Memory.new.read).1 = Except.ok [] := by
  exact ⟨rfl, rfl, rfl⟩

/-- C4: for every engine state holding value `v1 = db.data` and every value
`v2`, `replace v2` returns exactly `v1` and leaves the engine holding `v2`. -/
theorem replace_returns_old (D B : Type) (db : Database D B) (v2 : D) :
    db.replace v2 = (db.data, ⟨v2, db.backend⟩) := by
  cases db
  rfl

/-- C7: the in-memory store cannot fail: its error type is uninhabited, and
`read` and `write` always return the success variant. -/
theorem memory_infallible :
    IsEmpty Memory.Error ∧
    (∀ m : Memory, (m.read).1 = Except.ok m.buf) ∧
    (∀ (m : Memory) (b : List Nat), (m.write b).1 = Except.ok ()) := by
  refine ⟨⟨fun e => e.elim⟩, fun m => rfl, fun m b => rfl⟩

/-- C10: for every `Memory` store holding byte sequence `b = m.buf`, `take`
returns exactly `b` and leaves the store holding the empty sequence, so a
subsequent `read` returns the empty sequence. -/
theorem memory_take (m : Memory) :
    m.take = (m.buf, ⟨[]⟩) ∧ ((m.take).2.read).1 = Except.ok [] := by
  exact ⟨rfl, rfl⟩

/-- C1: whenever `save` fails — through an encoding failure or a backend write
failure — the in-memory value is exactly what it was before the call; and an
encoding failure additionally returns `ToFormat` with no write performed, the
whole state (backend included) unchanged. -/
theorem save_failure_preserves_value (D B ES ED E : Type) (F : Format D ES ED)
    (ops : Backend B E) (db : Database D B) :
    (∀ e : KoitError, (Database.save F ops db).1 = Except.error e →
      (Database.save F ops db).2.data = db.data) ∧
    (∀ es : ES, F.to_bytes db.data = Except.error es →
      Database.save F ops db = (Except.error KoitError.ToFormat, db)) := by
  constructor
  · intro e _
    cases hb : F.to_bytes db.data with
    | error es => simp [Database.save, hb]
    | ok bytes =>
      cases hw : ops.write db.backend bytes with
      | mk r b => cases r <;> simp [Database.save, hb, hw]
  · intro es hes
    simp [Database.save, hes]

/-- Witness for C1: a format whose encoder always fails, over the in-memory
backend. -/
def failFormat : Format (List Nat) Unit Unit :=
  { to_bytes := fun _ => Except.error (), from_bytes := fun _ => Except.error () }

/-- A format that encodes and decodes a byte list as itself. -/
def idFormat : Format (List Nat) Unit Unit :=
  { to_bytes := fun d => Except.ok d, from_bytes := fun b => Except.ok b }

/-- C1 witness: on a concrete database, a failing encoder makes `save` return
`ToFormat` and leave the state untouched. -/
theorem save_failure_preserves_value_witness :
    Database.save failFormat Memory.backend ⟨[1, 2], ⟨[9]⟩⟩ =
      (Except.error KoitError.ToFormat, ⟨[1, 2], ⟨[9]⟩⟩) ∧
    (Database.save failFormat Memory.backend ⟨[1, 2], ⟨[9]⟩⟩).2.data = [1, 2] :=
  ⟨(save_failure_preserves_value (List Nat) Memory Unit Unit Memory.Error
      failFormat Memory.backend ⟨[1, 2], ⟨[9]⟩⟩).2 () rfl,
   (save_failure_preserves_value (List Nat) Memory Unit Unit Memory.Error
      failFormat Memory.backend ⟨[1, 2], ⟨[9]⟩⟩).1 KoitError.ToFormat rfl⟩

/-- C2: if `reload` fails — the backend read returns an error or decoding
fails — the in-memory value is unchanged and the corresponding error is
returned; on success, `reload` swaps in the newly decoded value and returns
the previous in-memory value. -/
theorem reload_spec (D B ES ED E : Type) (F : Format D ES ED)
    (ops : Backend B E) (db : Database D B) :
    (∀ e : E, (ops.read db.backend).1 = Except.error e →
      (Database.reload F ops db).1 = Except.error KoitError.BackendRead ∧
      (Database.reload F ops db).2.data = db.data) ∧
    (∀ (bytes : List Nat) (ed : ED), (ops.read db.backend).1 = Except.ok bytes →
      F.from_bytes bytes = Except.error ed →
      (Database.reload F ops db).1 = Except.error KoitError.FromFormat ∧
      (Database.reload F ops db).2.data = db.data) ∧
    (∀ (bytes : List Nat) (d : D), (ops.read db.backend).1 = Except.ok bytes →
      F.from_bytes bytes = Except.ok d →
      Database.reload F ops db =
        (Except.ok db.data, ⟨d, (ops.read db.backend).2⟩)) := by
  refine ⟨?_, ?_, ?_⟩
  · intro e he
    cases hrd : ops.read db.backend with
    | mk r b =>
      rw [hrd] at he
      simp only at he
      subst he
      simp [Database.reload, Database.load_from_backend, hrd]
  · intro bytes ed hr hd
    cases hrd : ops.read db.backend with
    | mk r b =>
      rw [hrd] at hr
      simp only at hr
      subst hr
      simp [Database.reload, Database.load_from_backend, hrd, hd]
  · intro bytes d hr hd
    cases hrd : ops.read db.backend with
    | mk r b =>
      rw [hrd] at hr
      simp only at hr
      subst hr
      simp [Database.reload, Database.load_from_backend, Database.replace,
        hrd, hd]

/-- C2 witness: on a concrete in-memory database, `reload` succeeds, returns
the previous value and swaps in the decoded backend content. -/
theorem reload_spec_witness :
    Database.reload idFormat Memory.backend ⟨[1], ⟨[7, 8]⟩⟩ =
      (Except.ok [1], ⟨[7, 8], ⟨[7, 8]⟩⟩) :=
  (reload_spec (List Nat) Memory Unit Unit Memory.Error idFormat
      Memory.backend ⟨[1], ⟨[7, 8]⟩⟩).2.2 [7, 8] [7, 8] rfl rfl

/-- Setting a path and then looking it up yields the set content. -/
theorem fsLookup_fsSet (fs : FS) (p : String) (c : List Nat) :
    fsLookup (fsSet fs p c) p = some c := by
  induction fs with
  | nil => simp [fsSet, fsLookup]
  | cons hd tl ih =>
    obtain ⟨q, d⟩ := hd
    by_cases hq : q = p
    · simp [fsSet, fsLookup, hq]
    · simp [fsSet, fsLookup, hq, ih]

/-- C8: `from_path_or_create` reports whether the file pre-existed: it returns
the flag `true` (and the unchanged file system) when the file already existed,
and the flag `false` (having created the empty file) when it was absent. -/
theorem from_path_or_create_reports (fs : FS) (p : String) :
    (∀ b : List Nat, fsLookup fs p = some b →
      File.from_path_or_create fs p = Except.ok (p, true, fs)) ∧
    (fsLookup fs p = none →
      File.from_path_or_create fs p = Except.ok (p, false, fsSet fs p [])) := by
  constructor
  · intro b hb
    simp [File.from_path_or_create, File.from_path, hb]
  · intro hn
    simp [File.from_path_or_create, File.from_path, hn]

/-- C8 witness: on a concrete one-file file system the flag is `true`, and on
the empty file system the file is created and the flag is `false`. -/
theorem from_path_or_create_reports_witness :
    File.from_path_or_create [("a", [1])] "a" = Except.ok ("a", true, [("a", [1])]) ∧
    File.from_path_or_create [] "a" = Except.ok ("a", false, [("a", [])]) :=
  ⟨(from_path_or_create_reports [("a", [1])] "a").1 [1] (by decide),
   (from_path_or_create_reports [] "a").2 (by decide)⟩

/-- C6: `load_from_path` on a non-existent file fails with `BackendCreation`
and produces no engine; and on an existing file whose content does not decode
it fails with `FromFormat`. -/
theorem load_from_path_fails (D ES ED : Type) (F : Format D ES ED) (fs : FS)
    (p : String) :
    (fsLookup fs p = none →
      load_from_path F fs p = Except.error KoitError.BackendCreation) ∧
    (∀ (b : List Nat) (ed : ED), fsLookup fs p = some b →
      F.from_bytes b = Except.error ed →
      load_from_path F fs p = Except.error KoitError.FromFormat) := by
  constructor
  · intro hn
    simp [load_from_path, File.from_path, hn]
  · intro b ed hb hd
    simp [load_from_path, File.from_path, File.backend, File.fsRead, hb, hd]

/-- C6 witness: with an always-failing decoder, loading from a missing path
fails with `BackendCreation`, and loading an existing undecodable file fails
with `FromFormat`. -/
theorem load_from_path_fails_witness :
    load_from_path failFormat [] "a" = Except.error KoitError.BackendCreation ∧
    load_from_path failFormat [("a", [1])] "a" = Except.error KoitError.FromFormat :=
  ⟨(load_from_path_fails (List Nat) Unit Unit failFormat [] "a").1 (by decide),
   (load_from_path_fails (List Nat) Unit Unit failFormat [("a", [1])] "a").2
     [1] () (by decide) rfl⟩

/-- C5: whenever `load_from_path_or_else` returns an engine, the engine's file
holds exactly the encoding of its initial value (the value was persisted
before returning); and that initial value is the decoded pre-existing content
when the file existed, or `factory ()` when it did not. -/
theorem load_from_path_or_else_saves (D ES ED : Type) (F : Format D ES ED)
    (fs : FS) (p : String) (factory : Unit → D)
    (db : Database D (FS × String)) :
    load_from_path_or_else F fs p factory = Except.ok db →
      db.backend.2 = p ∧
      (∃ bytes : List Nat, F.to_bytes db.data = Except.ok bytes ∧
        fsLookup db.backend.1 p = some bytes) ∧
      (fsLookup fs p = none → db.data = factory ()) ∧
      (∀ b : List Nat, fsLookup fs p = some b →
        F.from_bytes b = Except.ok db.data) := by
  intro h
  cases h0 : fsLookup fs p with
  | none =>
    simp [load_from_path_or_else, File.from_path_or_create, File.from_path,
      File.backend, Database.save, h0] at h
    cases ht : F.to_bytes (factory ()) with
    | error es => simp [ht] at h
    | ok bytes =>
      simp only [ht] at h
      injection h with h
      subst h
      refine ⟨rfl, ⟨bytes, ht, fsLookup_fsSet _ _ _⟩, fun _ => rfl, ?_⟩
      intro b hb
      exact Option.noConfusion hb
  | some b0 =>
    simp [load_from_path_or_else, File.from_path_or_create, File.from_path,
      File.backend, File.fsRead, Database.save, h0, Option.getD] at h
    cases hd : F.from_bytes b0 with
    | error ed => simp [hd] at h
    | ok d =>
      simp only [hd] at h
      cases ht : F.to_bytes d with
      | error es => simp [ht] at h
      | ok bytes =>
        simp only [ht] at h
        injection h with h
        subst h
        refine ⟨rfl, ⟨bytes, ht, fsLookup_fsSet _ _ _⟩, ?_, ?_⟩
        · intro hn
          exact Option.noConfusion hn
        · intro b hb
          injection hb with hb
          subst hb
          exact hd

/-- C5 witness: on the empty file system, loading with a factory creates the
file, seeds it with the encoded factory value, and the returned engine holds
that value with its encoding on the file. -/
theorem load_from_path_or_else_saves_witness :
    ((⟨[5], ([("a", [5])], "a")⟩ : Database (List Nat) (FS × String)).backend.2 = "a") ∧
    (∃ bytes : List Nat, idFormat.to_bytes [5] = Except.ok bytes ∧
      fsLookup [("a", [5])] "a" = some bytes) := by
  have happ := load_from_path_or_else_saves (List Nat) Unit Unit idFormat []
    "a" (fun _ => [5]) ⟨[5], ([("a", [5])], "a")⟩ rfl
  exact ⟨happ.1, happ.2.1⟩

/-- C9: the file-backed write attempts exactly seek-to-start, truncate to
zero, write-all, then sync, in this order (the attempted operations are an
initial segment of that sequence); on success all four were performed and the
file holds exactly the given bytes; on failure an error is returned and the
state is exactly what the completed operations left behind — no rollback. -/
theorem file_write_performs_steps (ok : Nat → Bool) (st : FileState)
    (data : List Nat) :
    ((File.write ok st data).2.2 =
      (File.writeSteps data).take (File.write ok st data).2.2.length) ∧
    ((File.write ok st data).1 = Except.ok () →
      (File.write ok st data).2.2 = File.writeSteps data ∧
      (File.write ok st data).2.1.content = data) ∧
    (∀ e : IoError, (File.write ok st data).1 = Except.error e →
      (File.write ok st data).2.1 =
        applyOps ((File.write ok st data).2.2).dropLast st) := by
  cases h0 : ok 0 <;> cases h1 : ok 1 <;> cases h2 : ok 2 <;> cases h3 : ok 3 <;>
    simp [File.write, File.writeSteps, runOps, applyOps, applyOp, h0, h1, h2, h3]

/-- C9 witness: when the third step (write-all) fails, an error is returned
and the file is left truncated — the state is exactly the effect of the
completed seek and truncate. -/
theorem file_write_performs_steps_witness :
    (File.write (fun i => decide (i < 2)) ⟨[1, 2, 3], 0⟩ [7]).2.1 =
      applyOps ((File.write (fun i => decide (i < 2)) ⟨[1, 2, 3], 0⟩ [7]).2.2).dropLast
        ⟨[1, 2, 3], 0⟩ ∧
    (File.write (fun i => decide (i < 2)) ⟨[1, 2, 3], 0⟩ [7]).2.1.content = [] :=
  ⟨(file_write_performs_steps (fun i => decide (i < 2)) ⟨[1, 2, 3], 0⟩ [7]).2.2
      IoError.other rfl,
   rfl⟩

end Koit
